import Mathlib

/-!
Verification of the branch-cleanup retention engine
(`.github/actions/branch-cleanup/index.js`, class `BranchCleanup`).

The engine is embedded shallowly.  The external collaborators (the octokit
branch source, the configuration loader, the reporter) are modelled as plain
inputs: each branch of the listing is a `BranchInfo` record carrying, besides
its name, the responses the branch source would give for it (`lastCommit`:
the timestamp `getBranchLastCommitDate` would return, or `none` when that
call would throw; `deleteSucceeds`: what `deleteBranch` would return).
Instants are integers measured in days; the calendar-day subtraction
`cutoffDate.setDate(cutoffDate.getDate() - this.daysOld)` of index.js is
modelled as uniform day subtraction (time-zone and DST irregularities of
JavaScript `setDate` are not modelled).  The engine's mutable per-run state
(`deletedBranches`, `skippedBranches`) is threaded explicitly, extended with
call logs (`fetchCalls`, `deleteCalls`) recording every invocation of
`getBranchLastCommitDate` and `octokit.rest.git.deleteRef`, so that claims
about calls never being made are statable.  A run whose `getDefaultBranch`
or `getAllBranches` call fails aborts fatally before any of the behaviour
modelled here; `run` models the non-fatal path, taking the already-fetched
default branch name and listing as arguments.
-/

/-- A branch of the listing together with the branch source's behaviour for
it: `lastCommit` is the last-commit timestamp (in days) that
`getBranchLastCommitDate` returns, or `none` when that call throws;
`deleteSucceeds` is the boolean `deleteBranch` returns (index.js lines
115-127: deletion failures are caught and surfaced as `false`). -/
structure BranchInfo where
  name : String
  lastCommit : Option Int
  deleteSucceeds : Bool
deriving Repr, DecidableEq

/-- The exclude pattern input.  `empty` is the falsy empty string (index.js
line 47 returns `false` before compiling); `valid matcher` is a pattern that
compiles, with `matcher` the compiled regex's `test`; `invalid` is a pattern
whose compilation throws, which `matchesExcludePattern` catches, logging and
returning `false` (lines 51-54). -/
inductive ExcludePattern where
  | empty : ExcludePattern
  | valid (matcher : String → Bool) : ExcludePattern
  | invalid : ExcludePattern

/-- The configuration loaded in the constructor (index.js lines 7-10). -/
structure Config where
  daysOld : Int
  dryRun : Bool
  protectedBranches : List String
  excludePattern : ExcludePattern

/-- The engine's mutable per-run accumulators (`this.deletedBranches`,
`this.skippedBranches`), plus logs of the branch-source calls issued:
`fetchCalls` records each invocation of `getBranchLastCommitDate`,
`deleteCalls` each invocation of `deleteBranch`. -/
structure RunState where
  deletedBranches : List String
  skippedBranches : List (String × String)
  fetchCalls : List String
  deleteCalls : List String
deriving Repr, DecidableEq

def emptyState : RunState := ⟨[], [], [], []⟩

/-- `isProtected` (index.js lines 42-44): exact, case-sensitive membership
of the name in the protected list. -/
def isProtected (protectedBranches : List String) (branchName : String) : Bool :=
  protectedBranches.contains branchName

/-- `matchesExcludePattern` (index.js lines 46-55): falsy pattern gives
`false`; a compiling pattern is tested against the name; a compilation
error is caught and gives `false`. -/
def matchesExcludePattern (pat : ExcludePattern) (branchName : String) : Bool :=
  match pat with
  | .empty => false
  | .valid matcher => matcher branchName
  | .invalid => false

/-- `addSkippedBranch` (index.js lines 57-59): push a (branch, reason) pair. -/
def addSkippedBranch (st : RunState) (branchName reason : String) : RunState :=
  { st with skippedBranches := st.skippedBranches ++ [(branchName, reason)] }

/-- `this.deletedBranches.push(branchName)` (index.js lines 211, 218). -/
def pushDeleted (st : RunState) (branchName : String) : RunState :=
  { st with deletedBranches := st.deletedBranches ++ [branchName] }

/-- Log an invocation of `getBranchLastCommitDate` (index.js line 200). -/
def recordFetch (st : RunState) (branchName : String) : RunState :=
  { st with fetchCalls := st.fetchCalls ++ [branchName] }

/-- Log an invocation of `deleteBranch` / `git.deleteRef` (index.js line 214). -/
def recordDeleteCall (st : RunState) (branchName : String) : RunState :=
  { st with deleteCalls := st.deleteCalls ++ [branchName] }

/-- Adding the default branch to the protected list when absent
(index.js lines 156-158). -/
def addDefaultToProtected (protectedBranches : List String) (defaultBranch : String) : List String :=
  if protectedBranches.contains defaultBranch then protectedBranches
  else protectedBranches ++ [defaultBranch]

/-- The cutoff (index.js lines 161-162): `now` minus `daysOld` days,
computed once before the loop.  Instants are in days. -/
def computeCutoff (now daysOld : Int) : Int := now - daysOld

/-- `branchesToProcess` (index.js line 167): all listed branches except the
default branch, in listing order. -/
def candidateBranches (defaultBranch : String) (branches : List BranchInfo) : List BranchInfo :=
  branches.filter (fun branch => branch.name != defaultBranch)

/-- One iteration of the per-branch loop (index.js lines 178-233).
Protected and excluded branches are skipped without fetching; otherwise the
commit date is fetched (logged in `fetchCalls` whether it succeeds or
throws); on fetch failure the branch is skipped `error_processing` (the
`catch` at lines 227-230); on success, `lastCommitDate < cutoffDate`
(line 206) selects deletion — recorded without any call in dry-run, or via
`deleteBranch` live, a failure of which skips `deletion_failed` — while
`lastCommitDate ≥ cutoffDate` skips `too_recent`. -/
def processBranch (protectedBranches : List String) (pat : ExcludePattern)
    (dryRun : Bool) (cutoffDate : Int) (st : RunState) (branch : BranchInfo) : RunState :=
  if isProtected protectedBranches branch.name then
    addSkippedBranch st branch.name "protected"
  else if matchesExcludePattern pat branch.name then
    addSkippedBranch st branch.name "matches_exclude_pattern"
  else
    match branch.lastCommit with
    | none => addSkippedBranch (recordFetch st branch.name) branch.name "error_processing"
    | some lastCommitDate =>
      if lastCommitDate < cutoffDate then
        if dryRun then
          pushDeleted (recordFetch st branch.name) branch.name
        else if branch.deleteSucceeds then
          pushDeleted (recordDeleteCall (recordFetch st branch.name) branch.name) branch.name
        else
          addSkippedBranch (recordDeleteCall (recordFetch st branch.name) branch.name) branch.name "deletion_failed"
      else
        addSkippedBranch (recordFetch st branch.name) branch.name "too_recent"

/-- The whole per-branch loop, as a left fold over the candidates in
listing order. -/
def runBranches (protectedBranches : List String) (pat : ExcludePattern)
    (dryRun : Bool) (cutoffDate : Int) (branchesToProcess : List BranchInfo) : RunState :=
  branchesToProcess.foldl (processBranch protectedBranches pat dryRun cutoffDate) emptyState

/-- Result of a non-fatal run: the final accumulators and call logs, and
whether the summary/outputs (`core.setOutput`, index.js lines 256-258) were
emitted — the early `return` at lines 169-172 skips them. -/
structure RunResult extends RunState where
  outputEmitted : Bool
deriving Repr, DecidableEq

/-- `BranchCleanup.run` (index.js lines 139-270), non-fatal path: the
default branch is added to the protected list (lines 156-158), the cutoff
is computed once (lines 160-162), the default branch is filtered out of the
listing (line 167); an empty candidate set returns early without emitting
the report (lines 169-172); otherwise each candidate is processed in order
and the report is emitted (lines 256-258). -/
def run (cfg : Config) (defaultBranch : String) (branches : List BranchInfo)
    (now : Int) : RunResult :=
  let protectedBranches := addDefaultToProtected cfg.protectedBranches defaultBranch
  let cutoffDate := computeCutoff now cfg.daysOld
  let branchesToProcess := candidateBranches defaultBranch branches
  if branchesToProcess.length = 0 then
    { emptyState with outputEmitted := false }
  else
    { runBranches protectedBranches cfg.excludePattern cfg.dryRun cutoffDate branchesToProcess with
      outputEmitted := true }

/-! ## Characterisation of the fold -/

/-- Componentwise concatenation of two run states. -/
def RunState.append (s t : RunState) : RunState :=
  ⟨s.deletedBranches ++ t.deletedBranches, s.skippedBranches ++ t.skippedBranches,
   s.fetchCalls ++ t.fetchCalls, s.deleteCalls ++ t.deleteCalls⟩

/-- The contribution of a single branch to the run state: what one loop
iteration appends. -/
def branchDelta (protectedBranches : List String) (pat : ExcludePattern)
    (dryRun : Bool) (cutoffDate : Int) (branch : BranchInfo) : RunState :=
  processBranch protectedBranches pat dryRun cutoffDate emptyState branch

theorem RunState.append_empty (s : RunState) : s.append emptyState = s := by
  simp [RunState.append, emptyState]

theorem RunState.empty_append (s : RunState) : emptyState.append s = s := by
  simp [RunState.append, emptyState]

theorem RunState.append_assoc (s t u : RunState) :
    (s.append t).append u = s.append (t.append u) := by
  simp [RunState.append]

theorem processBranch_eq_append (protectedBranches : List String) (pat : ExcludePattern)
    (dryRun : Bool) (cutoffDate : Int) (st : RunState) (branch : BranchInfo) :
    processBranch protectedBranches pat dryRun cutoffDate st branch =
      st.append (branchDelta protectedBranches pat dryRun cutoffDate branch) := by
  unfold branchDelta processBranch
  cases hb : branch.lastCommit <;>
    simp only [addSkippedBranch, pushDeleted, recordFetch, recordDeleteCall,
      RunState.append, emptyState] <;>
    split_ifs <;>
    simp

theorem foldl_processBranch (protectedBranches : List String) (pat : ExcludePattern)
    (dryRun : Bool) (cutoffDate : Int) (l : List BranchInfo) (st : RunState) :
    l.foldl (processBranch protectedBranches pat dryRun cutoffDate) st =
      st.append (runBranches protectedBranches pat dryRun cutoffDate l) := by
  induction l generalizing st with
  | nil => simp [runBranches, RunState.append_empty]
  | cons b l ih =>
    have h1 : (b :: l).foldl (processBranch protectedBranches pat dryRun cutoffDate) st
        = (st.append (branchDelta protectedBranches pat dryRun cutoffDate b)).append
            (runBranches protectedBranches pat dryRun cutoffDate l) := by
      rw [List.foldl_cons, processBranch_eq_append, ih]
    have h2 : runBranches protectedBranches pat dryRun cutoffDate (b :: l)
        = (emptyState.append (branchDelta protectedBranches pat dryRun cutoffDate b)).append
            (runBranches protectedBranches pat dryRun cutoffDate l) := by
      rw [runBranches, List.foldl_cons, processBranch_eq_append, ih]
    rw [h1, h2, RunState.empty_append, RunState.append_assoc]

theorem runBranches_cons (protectedBranches : List String) (pat : ExcludePattern)
    (dryRun : Bool) (cutoffDate : Int) (b : BranchInfo) (l : List BranchInfo) :
    runBranches protectedBranches pat dryRun cutoffDate (b :: l) =
      (branchDelta protectedBranches pat dryRun cutoffDate b).append
        (runBranches protectedBranches pat dryRun cutoffDate l) := by
  rw [runBranches, List.foldl_cons, foldl_processBranch, processBranch_eq_append,
    RunState.empty_append]

theorem runBranches_append (protectedBranches : List String) (pat : ExcludePattern)
    (dryRun : Bool) (cutoffDate : Int) (l₁ l₂ : List BranchInfo) :
    runBranches protectedBranches pat dryRun cutoffDate (l₁ ++ l₂) =
      (runBranches protectedBranches pat dryRun cutoffDate l₁).append
        (runBranches protectedBranches pat dryRun cutoffDate l₂) := by
  induction l₁ with
  | nil => simp [runBranches, RunState.empty_append]
  | cons b l ih =>
    rw [List.cons_append, runBranches_cons, runBranches_cons, ih, RunState.append_assoc]

theorem runBranches_deleted (protectedBranches : List String) (pat : ExcludePattern)
    (dryRun : Bool) (cutoffDate : Int) (l : List BranchInfo) :
    (runBranches protectedBranches pat dryRun cutoffDate l).deletedBranches =
      l.flatMap (fun b => (branchDelta protectedBranches pat dryRun cutoffDate b).deletedBranches) := by
  induction l with
  | nil => rfl
  | cons b l ih => rw [runBranches_cons, List.flatMap_cons, ← ih]; rfl

theorem runBranches_skipped (protectedBranches : List String) (pat : ExcludePattern)
    (dryRun : Bool) (cutoffDate : Int) (l : List BranchInfo) :
    (runBranches protectedBranches pat dryRun cutoffDate l).skippedBranches =
      l.flatMap (fun b => (branchDelta protectedBranches pat dryRun cutoffDate b).skippedBranches) := by
  induction l with
  | nil => rfl
  | cons b l ih => rw [runBranches_cons, List.flatMap_cons, ← ih]; rfl

theorem runBranches_fetch (protectedBranches : List String) (pat : ExcludePattern)
    (dryRun : Bool) (cutoffDate : Int) (l : List BranchInfo) :
    (runBranches protectedBranches pat dryRun cutoffDate l).fetchCalls =
      l.flatMap (fun b => (branchDelta protectedBranches pat dryRun cutoffDate b).fetchCalls) := by
  induction l with
  | nil => rfl
  | cons b l ih => rw [runBranches_cons, List.flatMap_cons, ← ih]; rfl

theorem runBranches_delete (protectedBranches : List String) (pat : ExcludePattern)
    (dryRun : Bool) (cutoffDate : Int) (l : List BranchInfo) :
    (runBranches protectedBranches pat dryRun cutoffDate l).deleteCalls =
      l.flatMap (fun b => (branchDelta protectedBranches pat dryRun cutoffDate b).deleteCalls) := by
  induction l with
  | nil => rfl
  | cons b l ih => rw [runBranches_cons, List.flatMap_cons, ← ih]; rfl

theorem run_toRunState (cfg : Config) (defaultBranch : String)
    (branches : List BranchInfo) (now : Int) :
    (run cfg defaultBranch branches now).toRunState =
      runBranches (addDefaultToProtected cfg.protectedBranches defaultBranch)
        cfg.excludePattern cfg.dryRun (computeCutoff now cfg.daysOld)
        (candidateBranches defaultBranch branches) := by
  simp only [run]
  split
  · rename_i h
    rw [List.length_eq_zero] at h
    rw [h]
    rfl
  · rfl

/-! ## The seven per-branch outcomes -/

theorem branchDelta_protected (protectedBranches : List String) (pat : ExcludePattern)
    (dryRun : Bool) (cutoffDate : Int) (b : BranchInfo)
    (h : isProtected protectedBranches b.name = true) :
    branchDelta protectedBranches pat dryRun cutoffDate b =
      ⟨[], [(b.name, "protected")], [], []⟩ := by
  simp [branchDelta, processBranch, h, addSkippedBranch, emptyState]

theorem branchDelta_excluded (protectedBranches : List String) (pat : ExcludePattern)
    (dryRun : Bool) (cutoffDate : Int) (b : BranchInfo)
    (h : isProtected protectedBranches b.name = false)
    (hx : matchesExcludePattern pat b.name = true) :
    branchDelta protectedBranches pat dryRun cutoffDate b =
      ⟨[], [(b.name, "matches_exclude_pattern")], [], []⟩ := by
  simp [branchDelta, processBranch, h, hx, addSkippedBranch, emptyState]

theorem branchDelta_fetchFail (protectedBranches : List String) (pat : ExcludePattern)
    (dryRun : Bool) (cutoffDate : Int) (b : BranchInfo)
    (h : isProtected protectedBranches b.name = false)
    (hx : matchesExcludePattern pat b.name = false)
    (hc : b.lastCommit = none) :
    branchDelta protectedBranches pat dryRun cutoffDate b =
      ⟨[], [(b.name, "error_processing")], [b.name], []⟩ := by
  simp [branchDelta, processBranch, h, hx, hc, addSkippedBranch, recordFetch, emptyState]

theorem branchDelta_tooRecent (protectedBranches : List String) (pat : ExcludePattern)
    (dryRun : Bool) (cutoffDate : Int) (b : BranchInfo) (t : Int)
    (h : isProtected protectedBranches b.name = false)
    (hx : matchesExcludePattern pat b.name = false)
    (hc : b.lastCommit = some t) (ht : ¬ t < cutoffDate) :
    branchDelta protectedBranches pat dryRun cutoffDate b =
      ⟨[], [(b.name, "too_recent")], [b.name], []⟩ := by
  simp [branchDelta, processBranch, h, hx, hc, ht, addSkippedBranch, recordFetch, emptyState]

theorem branchDelta_dryDelete (protectedBranches : List String) (pat : ExcludePattern)
    (cutoffDate : Int) (b : BranchInfo) (t : Int)
    (h : isProtected protectedBranches b.name = false)
    (hx : matchesExcludePattern pat b.name = false)
    (hc : b.lastCommit = some t) (ht : t < cutoffDate) :
    branchDelta protectedBranches pat true cutoffDate b =
      ⟨[b.name], [], [b.name], []⟩ := by
  simp [branchDelta, processBranch, h, hx, hc, ht, pushDeleted, recordFetch, emptyState]

theorem branchDelta_liveDeleteOk (protectedBranches : List String) (pat : ExcludePattern)
    (cutoffDate : Int) (b : BranchInfo) (t : Int)
    (h : isProtected protectedBranches b.name = false)
    (hx : matchesExcludePattern pat b.name = false)
    (hc : b.lastCommit = some t) (ht : t < cutoffDate)
    (hd : b.deleteSucceeds = true) :
    branchDelta protectedBranches pat false cutoffDate b =
      ⟨[b.name], [], [b.name], [b.name]⟩ := by
  simp [branchDelta, processBranch, h, hx, hc, ht, hd, pushDeleted, recordFetch,
    recordDeleteCall, emptyState]

theorem branchDelta_liveDeleteFail (protectedBranches : List String) (pat : ExcludePattern)
    (cutoffDate : Int) (b : BranchInfo) (t : Int)
    (h : isProtected protectedBranches b.name = false)
    (hx : matchesExcludePattern pat b.name = false)
    (hc : b.lastCommit = some t) (ht : t < cutoffDate)
    (hd : b.deleteSucceeds = false) :
    branchDelta protectedBranches pat false cutoffDate b =
      ⟨[], [(b.name, "deletion_failed")], [b.name], [b.name]⟩ := by
  simp [branchDelta, processBranch, h, hx, hc, ht, hd, addSkippedBranch, recordFetch,
    recordDeleteCall, emptyState]

/-! ## Name locality: every record a branch contributes carries its own name -/

theorem branchDelta_deleted_names (protectedBranches : List String) (pat : ExcludePattern)
    (dryRun : Bool) (cutoffDate : Int) (b : BranchInfo) :
    ∀ x ∈ (branchDelta protectedBranches pat dryRun cutoffDate b).deletedBranches,
      x = b.name := by
  unfold branchDelta processBranch
  cases hb : b.lastCommit <;>
    simp only [addSkippedBranch, pushDeleted, recordFetch, recordDeleteCall, emptyState] <;>
    split_ifs <;>
    simp

theorem branchDelta_skipped_names (protectedBranches : List String) (pat : ExcludePattern)
    (dryRun : Bool) (cutoffDate : Int) (b : BranchInfo) :
    ∀ x ∈ (branchDelta protectedBranches pat dryRun cutoffDate b).skippedBranches,
      x.1 = b.name := by
  unfold branchDelta processBranch
  cases hb : b.lastCommit <;>
    simp only [addSkippedBranch, pushDeleted, recordFetch, recordDeleteCall, emptyState] <;>
    split_ifs <;>
    simp

theorem branchDelta_fetch_names (protectedBranches : List String) (pat : ExcludePattern)
    (dryRun : Bool) (cutoffDate : Int) (b : BranchInfo) :
    ∀ x ∈ (branchDelta protectedBranches pat dryRun cutoffDate b).fetchCalls,
      x = b.name := by
  unfold branchDelta processBranch
  cases hb : b.lastCommit <;>
    simp only [addSkippedBranch, pushDeleted, recordFetch, recordDeleteCall, emptyState] <;>
    split_ifs <;>
    simp

theorem branchDelta_delete_names (protectedBranches : List String) (pat : ExcludePattern)
    (dryRun : Bool) (cutoffDate : Int) (b : BranchInfo) :
    ∀ x ∈ (branchDelta protectedBranches pat dryRun cutoffDate b).deleteCalls,
      x = b.name := by
  unfold branchDelta processBranch
  cases hb : b.lastCommit <;>
    simp only [addSkippedBranch, pushDeleted, recordFetch, recordDeleteCall, emptyState] <;>
    split_ifs <;>
    simp

/-! ## Generic lemmas for locating a branch's records in the joined lists -/

theorem mem_flatMap_unique {α β : Type} (l : List α) (f : α → List β)
    (nm : β → String) (key : α → String)
    (hf : ∀ a ∈ l, ∀ x ∈ f a, nm x = key a)
    (hnd : (l.map key).Nodup) (a : α) (ha : a ∈ l) (x : β) (hx : nm x = key a) :
    x ∈ l.flatMap f ↔ x ∈ f a := by
  constructor
  · intro hmem
    rcases List.mem_flatMap.mp hmem with ⟨a', ha', hxa'⟩
    have hkey : key a' = key a := by rw [← hf a' ha' x hxa', hx]
    have : a' = a := List.inj_on_of_nodup_map hnd ha' ha hkey
    rwa [← this]
  · intro hmem
    exact List.mem_flatMap.mpr ⟨a, ha, hmem⟩

theorem count_flatMap_unique {α : Type} (l : List α) (f : α → List String)
    (key : α → String)
    (hf : ∀ a ∈ l, ∀ x ∈ f a, x = key a)
    (hnd : (l.map key).Nodup) (a : α) (ha : a ∈ l) :
    (l.flatMap f).count (key a) = (f a).length := by
  induction l with
  | nil => exact absurd ha (List.not_mem_nil a)
  | cons b l ih =>
    have hndl : (l.map key).Nodup := (List.nodup_cons.mp hnd).2
    have hkb : key b ∉ l.map key := by
      have := (List.nodup_cons.mp hnd).1
      simpa using this
    rw [List.flatMap_cons, List.count_append]
    rcases List.mem_cons.mp ha with rfl | hal
    · have h1 : (f a).count (key a) = (f a).length :=
        List.count_eq_length.mpr (fun x hx => ((hf a (List.mem_cons_self a l) x hx)).symm)
      have h2 : (l.flatMap f).count (key a) = 0 := by
        rw [List.count_eq_zero]
        intro hmem
        rcases List.mem_flatMap.mp hmem with ⟨a', ha', hxa'⟩
        have : key a = key a' := hf a' (List.mem_cons_of_mem a ha') (key a) hxa'
        exact hkb (this ▸ List.mem_map_of_mem key ha')
      rw [h1, h2, Nat.add_zero]
    · have hka : key a ≠ key b := by
        intro h
        exact hkb (h ▸ List.mem_map_of_mem key hal)
      have h1 : (f b).count (key a) = 0 := by
        rw [List.count_eq_zero]
        intro hmem
        exact hka (hf b (List.mem_cons_self b l) (key a) hmem)
      have h2 := ih (fun a' ha' x hx => hf a' (List.mem_cons_of_mem b ha') x hx) hndl hal
      rw [h1, h2, Nat.zero_add]

/-! ## Run-level helpers -/

theorem mem_candidateBranches (defaultBranch : String) (branches : List BranchInfo)
    (b : BranchInfo) :
    b ∈ candidateBranches defaultBranch branches ↔
      b ∈ branches ∧ b.name ≠ defaultBranch := by
  simp [candidateBranches, List.mem_filter]

theorem run_deleted_eq (cfg : Config) (defaultBranch : String)
    (branches : List BranchInfo) (now : Int) :
    (run cfg defaultBranch branches now).deletedBranches =
      (candidateBranches defaultBranch branches).flatMap
        (fun b => (branchDelta (addDefaultToProtected cfg.protectedBranches defaultBranch)
          cfg.excludePattern cfg.dryRun (computeCutoff now cfg.daysOld) b).deletedBranches) := by
  have h : (run cfg defaultBranch branches now).deletedBranches =
      ((run cfg defaultBranch branches now).toRunState).deletedBranches := rfl
  rw [h, run_toRunState, runBranches_deleted]

theorem run_skipped_eq (cfg : Config) (defaultBranch : String)
    (branches : List BranchInfo) (now : Int) :
    (run cfg defaultBranch branches now).skippedBranches =
      (candidateBranches defaultBranch branches).flatMap
        (fun b => (branchDelta (addDefaultToProtected cfg.protectedBranches defaultBranch)
          cfg.excludePattern cfg.dryRun (computeCutoff now cfg.daysOld) b).skippedBranches) := by
  have h : (run cfg defaultBranch branches now).skippedBranches =
      ((run cfg defaultBranch branches now).toRunState).skippedBranches := rfl
  rw [h, run_toRunState, runBranches_skipped]

theorem run_fetch_eq (cfg : Config) (defaultBranch : String)
    (branches : List BranchInfo) (now : Int) :
    (run cfg defaultBranch branches now).fetchCalls =
      (candidateBranches defaultBranch branches).flatMap
        (fun b => (branchDelta (addDefaultToProtected cfg.protectedBranches defaultBranch)
          cfg.excludePattern cfg.dryRun (computeCutoff now cfg.daysOld) b).fetchCalls) := by
  have h : (run cfg defaultBranch branches now).fetchCalls =
      ((run cfg defaultBranch branches now).toRunState).fetchCalls := rfl
  rw [h, run_toRunState, runBranches_fetch]

theorem run_delete_eq (cfg : Config) (defaultBranch : String)
    (branches : List BranchInfo) (now : Int) :
    (run cfg defaultBranch branches now).deleteCalls =
      (candidateBranches defaultBranch branches).flatMap
        (fun b => (branchDelta (addDefaultToProtected cfg.protectedBranches defaultBranch)
          cfg.excludePattern cfg.dryRun (computeCutoff now cfg.daysOld) b).deleteCalls) := by
  have h : (run cfg defaultBranch branches now).deleteCalls =
      ((run cfg defaultBranch branches now).toRunState).deleteCalls := rfl
  rw [h, run_toRunState, runBranches_delete]

theorem mem_run_deleted_iff (cfg : Config) (defaultBranch : String)
    (branches : List BranchInfo) (now : Int)
    (hnd : ((candidateBranches defaultBranch branches).map BranchInfo.name).Nodup)
    (b : BranchInfo) (hb : b ∈ candidateBranches defaultBranch branches) :
    b.name ∈ (run cfg defaultBranch branches now).deletedBranches ↔
      b.name ∈ (branchDelta (addDefaultToProtected cfg.protectedBranches defaultBranch)
        cfg.excludePattern cfg.dryRun (computeCutoff now cfg.daysOld) b).deletedBranches := by
  rw [run_deleted_eq]
  exact mem_flatMap_unique _ _ id BranchInfo.name
    (fun a _ x hx => branchDelta_deleted_names _ _ _ _ a x hx) hnd b hb b.name rfl

theorem mem_run_skipped_iff (cfg : Config) (defaultBranch : String)
    (branches : List BranchInfo) (now : Int)
    (hnd : ((candidateBranches defaultBranch branches).map BranchInfo.name).Nodup)
    (b : BranchInfo) (hb : b ∈ candidateBranches defaultBranch branches)
    (p : String × String) (hp : p.1 = b.name) :
    p ∈ (run cfg defaultBranch branches now).skippedBranches ↔
      p ∈ (branchDelta (addDefaultToProtected cfg.protectedBranches defaultBranch)
        cfg.excludePattern cfg.dryRun (computeCutoff now cfg.daysOld) b).skippedBranches := by
  rw [run_skipped_eq]
  exact mem_flatMap_unique _ _ Prod.fst BranchInfo.name
    (fun a _ x hx => branchDelta_skipped_names _ _ _ _ a x hx) hnd b hb p hp

/-! ## Claims -/

/-- C1: for every candidate branch whose last-commit timestamp is
successfully fetched (it passes the protected and exclude checks and the
fetch returns `some t`), the branch ends in the deleted list or is skipped
`deletion_failed` exactly when `t` is strictly below the single cutoff
`computeCutoff now daysOld` computed once at run start, and is skipped
`too_recent` exactly when `t` is at or above that cutoff. -/
theorem claim_C1 (cfg : Config) (defaultBranch : String) (branches : List BranchInfo)
    (now : Int) (b : BranchInfo) (t : Int)
    (hnd : ((candidateBranches defaultBranch branches).map BranchInfo.name).Nodup)
    (hb : b ∈ candidateBranches defaultBranch branches)
    (hprot : isProtected (addDefaultToProtected cfg.protectedBranches defaultBranch) b.name = false)
    (hx : matchesExcludePattern cfg.excludePattern b.name = false)
    (hc : b.lastCommit = some t) :
    ((b.name ∈ (run cfg defaultBranch branches now).deletedBranches ∨
        (b.name, "deletion_failed") ∈ (run cfg defaultBranch branches now).skippedBranches) ↔
      t < computeCutoff now cfg.daysOld) ∧
    ((b.name, "too_recent") ∈ (run cfg defaultBranch branches now).skippedBranches ↔
      computeCutoff now cfg.daysOld ≤ t) := by
  rw [mem_run_deleted_iff cfg defaultBranch branches now hnd b hb,
    mem_run_skipped_iff cfg defaultBranch branches now hnd b hb (b.name, "deletion_failed") rfl,
    mem_run_skipped_iff cfg defaultBranch branches now hnd b hb (b.name, "too_recent") rfl]
  by_cases ht : t < computeCutoff now cfg.daysOld
  · cases hdry : cfg.dryRun
    · cases hdel : b.deleteSucceeds
      · rw [branchDelta_liveDeleteFail _ _ _ _ _ hprot hx hc ht hdel]
        refine ⟨⟨fun _ => ht, fun _ => Or.inr (by simp)⟩, ?_⟩
        constructor
        · intro hmem
          simp only [List.mem_singleton, Prod.mk.injEq] at hmem
          exact absurd hmem.2 (by decide)
        · intro hge
          exact absurd ht (not_lt.mpr hge)
      · rw [branchDelta_liveDeleteOk _ _ _ _ _ hprot hx hc ht hdel]
        refine ⟨⟨fun _ => ht, fun _ => Or.inl (by simp)⟩, ?_⟩
        constructor
        · intro hmem
          exact absurd hmem (List.not_mem_nil _)
        · intro hge
          exact absurd ht (not_lt.mpr hge)
    · rw [branchDelta_dryDelete _ _ _ _ _ hprot hx hc ht]
      refine ⟨⟨fun _ => ht, fun _ => Or.inl (by simp)⟩, ?_⟩
      constructor
      · intro hmem
        exact absurd hmem (List.not_mem_nil _)
      · intro hge
        exact absurd ht (not_lt.mpr hge)
  · rw [branchDelta_tooRecent _ _ _ _ _ _ hprot hx hc ht]
    refine ⟨?_, ?_⟩
    · constructor
      · rintro (hmem | hmem)
        · exact absurd hmem (List.not_mem_nil _)
        · simp only [List.mem_singleton, Prod.mk.injEq] at hmem
          exact absurd hmem.2 (by decide)
      · intro hlt
        exact absurd hlt ht
    · constructor
      · intro _
        exact not_lt.mp ht
      · intro _
        simp

/-- C1 witness: with threshold 14 and `now = 100`, the branch `feature/a`
whose last commit was at day 85 (15 days old) is classified deletable, and
is skipped `too_recent` exactly when the cutoff is at or below 85 (it is
not). -/
theorem claim_C1_witness :
    ((BranchInfo.name ⟨"feature/a", some 85, true⟩ ∈
        (run ⟨14, false, ["main"], ExcludePattern.empty⟩ "main"
          [⟨"main", some 100, true⟩, ⟨"feature/a", some 85, true⟩] 100).deletedBranches ∨
      (BranchInfo.name ⟨"feature/a", some 85, true⟩, "deletion_failed") ∈
        (run ⟨14, false, ["main"], ExcludePattern.empty⟩ "main"
          [⟨"main", some 100, true⟩, ⟨"feature/a", some 85, true⟩] 100).skippedBranches) ↔
      (85 : Int) < computeCutoff 100 14) ∧
    ((BranchInfo.name ⟨"feature/a", some 85, true⟩, "too_recent") ∈
        (run ⟨14, false, ["main"], ExcludePattern.empty⟩ "main"
          [⟨"main", some 100, true⟩, ⟨"feature/a", some 85, true⟩] 100).skippedBranches ↔
      computeCutoff 100 14 ≤ (85 : Int)) :=
  claim_C1 ⟨14, false, ["main"], ExcludePattern.empty⟩ "main"
    [⟨"main", some 100, true⟩, ⟨"feature/a", some 85, true⟩] 100
    ⟨"feature/a", some 85, true⟩ 85 (by decide) (by decide) (by decide) (by decide) rfl

theorem branchDelta_record_count (protectedBranches : List String) (pat : ExcludePattern)
    (dryRun : Bool) (cutoffDate : Int) (b : BranchInfo) :
    (branchDelta protectedBranches pat dryRun cutoffDate b).deletedBranches.length
      + (branchDelta protectedBranches pat dryRun cutoffDate b).skippedBranches.length = 1 := by
  unfold branchDelta processBranch
  cases hb : b.lastCommit <;>
    simp only [addSkippedBranch, pushDeleted, recordFetch, recordDeleteCall, emptyState] <;>
    split_ifs <;>
    simp

/-- C2: for every run that does not abort fatally, each candidate branch
(listed branch other than the default branch, names being unique within a
listing) is recorded exactly once across the deleted and skipped lists:
its total number of occurrences in the two lists is one. -/
theorem claim_C2 (cfg : Config) (defaultBranch : String) (branches : List BranchInfo)
    (now : Int)
    (hnd : ((candidateBranches defaultBranch branches).map BranchInfo.name).Nodup)
    (b : BranchInfo) (hb : b ∈ candidateBranches defaultBranch branches) :
    (run cfg defaultBranch branches now).deletedBranches.count b.name
      + ((run cfg defaultBranch branches now).skippedBranches.map Prod.fst).count b.name
      = 1 := by
  rw [run_deleted_eq, run_skipped_eq, List.map_flatMap]
  rw [count_flatMap_unique (candidateBranches defaultBranch branches) _ BranchInfo.name
    (fun a _ x hx => branchDelta_deleted_names _ _ _ _ a x hx) hnd b hb]
  rw [count_flatMap_unique (candidateBranches defaultBranch branches)
    (fun a => ((branchDelta (addDefaultToProtected cfg.protectedBranches defaultBranch)
      cfg.excludePattern cfg.dryRun (computeCutoff now cfg.daysOld) a).skippedBranches).map Prod.fst)
    BranchInfo.name ?hf hnd b hb]
  case hf =>
    intro a _ x hx
    rcases List.mem_map.mp hx with ⟨p, hp, rfl⟩
    exact branchDelta_skipped_names _ _ _ _ a p hp
  rw [List.length_map]
  exact branchDelta_record_count _ _ _ _ b

/-- C2 witness: in a concrete run with candidates `feature/a` (deleted) and
`release/1.0` (skipped `too_recent`), each appears exactly once across the
two lists; instantiated at `release/1.0`. -/
theorem claim_C2_witness :
    (run ⟨14, false, ["main"], ExcludePattern.empty⟩ "main"
        [⟨"main", some 100, true⟩, ⟨"feature/a", some 80, true⟩, ⟨"release/1.0", some 95, true⟩]
        100).deletedBranches.count (BranchInfo.name ⟨"release/1.0", some 95, true⟩)
      + ((run ⟨14, false, ["main"], ExcludePattern.empty⟩ "main"
          [⟨"main", some 100, true⟩, ⟨"feature/a", some 80, true⟩, ⟨"release/1.0", some 95, true⟩]
          100).skippedBranches.map Prod.fst).count (BranchInfo.name ⟨"release/1.0", some 95, true⟩)
      = 1 :=
  claim_C2 ⟨14, false, ["main"], ExcludePattern.empty⟩ "main"
    [⟨"main", some 100, true⟩, ⟨"feature/a", some 80, true⟩, ⟨"release/1.0", some 95, true⟩]
    100 (by decide) ⟨"release/1.0", some 95, true⟩ (by decide)

/-- C3: for every configuration, the repository's default branch is never a
candidate (every candidate's name differs from it), never appears in the
deleted list, never has a `deleteBranch` call issued for it, and is a
member of the protected list used for classification
(`addDefaultToProtected`), whether or not the configuration already listed
it. -/
theorem claim_C3 (cfg : Config) (defaultBranch : String) (branches : List BranchInfo)
    (now : Int) :
    (∀ b ∈ candidateBranches defaultBranch branches, b.name ≠ defaultBranch) ∧
    defaultBranch ∉ (run cfg defaultBranch branches now).deletedBranches ∧
    defaultBranch ∉ (run cfg defaultBranch branches now).deleteCalls ∧
    defaultBranch ∈ addDefaultToProtected cfg.protectedBranches defaultBranch := by
  have hcand : ∀ b ∈ candidateBranches defaultBranch branches, b.name ≠ defaultBranch :=
    fun b hb => ((mem_candidateBranches defaultBranch branches b).mp hb).2
  refine ⟨hcand, ?_, ?_, ?_⟩
  · intro hmem
    rw [run_deleted_eq] at hmem
    rcases List.mem_flatMap.mp hmem with ⟨b, hb, hbd⟩
    exact hcand b hb (branchDelta_deleted_names _ _ _ _ b defaultBranch hbd).symm
  · intro hmem
    rw [run_delete_eq] at hmem
    rcases List.mem_flatMap.mp hmem with ⟨b, hb, hbd⟩
    exact hcand b hb (branchDelta_delete_names _ _ _ _ b defaultBranch hbd).symm
  · unfold addDefaultToProtected
    split
    · rename_i h
      exact List.elem_iff.mp h
    · simp

theorem branchDelta_deleteCalls_dry (protectedBranches : List String) (pat : ExcludePattern)
    (cutoffDate : Int) (b : BranchInfo) :
    (branchDelta protectedBranches pat true cutoffDate b).deleteCalls = [] := by
  unfold branchDelta processBranch
  cases hb : b.lastCommit <;>
    simp only [addSkippedBranch, pushDeleted, recordFetch, recordDeleteCall, emptyState] <;>
    split_ifs <;>
    simp

/-- C4: when `dryRun` is true, no `deleteBranch` call is ever issued during
the run (the call log is empty for every listing and configuration), while
every candidate that reaches the age check with a timestamp below the
cutoff is still recorded in the deleted list. -/
theorem claim_C4 (cfg : Config) (defaultBranch : String) (branches : List BranchInfo)
    (now : Int) (hdry : cfg.dryRun = true) :
    (run cfg defaultBranch branches now).deleteCalls = [] ∧
    ∀ b ∈ candidateBranches defaultBranch branches,
      isProtected (addDefaultToProtected cfg.protectedBranches defaultBranch) b.name = false →
      matchesExcludePattern cfg.excludePattern b.name = false →
      ∀ t, b.lastCommit = some t → t < computeCutoff now cfg.daysOld →
        b.name ∈ (run cfg defaultBranch branches now).deletedBranches := by
  constructor
  · rw [run_delete_eq, List.flatMap_eq_nil_iff]
    intro b _
    rw [hdry]
    exact branchDelta_deleteCalls_dry _ _ _ b
  · intro b hb hprot hx t hc ht
    rw [run_deleted_eq]
    refine List.mem_flatMap.mpr ⟨b, hb, ?_⟩
    rw [hdry, branchDelta_dryDelete _ _ _ _ _ hprot hx hc ht]
    simp

/-- C4 witness: a dry run over `main` (default), an old `feature/a` and a
recent `release/1.0` issues no `deleteBranch` call, and `feature/a`
(timestamp 80, below the cutoff 86) is recorded as deleted. -/
theorem claim_C4_witness :
    (run ⟨14, true, ["main"], ExcludePattern.empty⟩ "main"
        [⟨"main", some 100, true⟩, ⟨"feature/a", some 80, true⟩, ⟨"release/1.0", some 95, true⟩]
        100).deleteCalls = [] ∧
    BranchInfo.name ⟨"feature/a", some 80, true⟩ ∈
      (run ⟨14, true, ["main"], ExcludePattern.empty⟩ "main"
        [⟨"main", some 100, true⟩, ⟨"feature/a", some 80, true⟩, ⟨"release/1.0", some 95, true⟩]
        100).deletedBranches := by
  have h := claim_C4 ⟨14, true, ["main"], ExcludePattern.empty⟩ "main"
    [⟨"main", some 100, true⟩, ⟨"feature/a", some 80, true⟩, ⟨"release/1.0", some 95, true⟩]
    100 rfl
  exact ⟨h.1, h.2 ⟨"feature/a", some 80, true⟩ (by decide) (by decide) (by decide) 80 rfl
    (by decide)⟩

theorem branchDelta_dry_vs_live (protectedBranches : List String) (pat : ExcludePattern)
    (cutoffDate : Int) (b : BranchInfo) (hd : b.deleteSucceeds = true) :
    (branchDelta protectedBranches pat true cutoffDate b).deletedBranches =
      (branchDelta protectedBranches pat false cutoffDate b).deletedBranches ∧
    (branchDelta protectedBranches pat true cutoffDate b).skippedBranches =
      (branchDelta protectedBranches pat false cutoffDate b).skippedBranches := by
  unfold branchDelta processBranch
  cases hb : b.lastCommit <;>
    simp only [addSkippedBranch, pushDeleted, recordFetch, recordDeleteCall, emptyState, hd] <;>
    first
      | (split_ifs <;> simp)
      | simp

/-- C5: with the same branch source, the same run-start instant and the
same configuration apart from the `dryRun` flag, if every `deleteBranch`
call would succeed then the dry run and the live run produce identical
deleted and skipped lists. -/
theorem claim_C5 (cfg : Config) (defaultBranch : String) (branches : List BranchInfo)
    (now : Int) (hok : ∀ b ∈ branches, b.deleteSucceeds = true) :
    (run { cfg with dryRun := true } defaultBranch branches now).deletedBranches =
      (run { cfg with dryRun := false } defaultBranch branches now).deletedBranches ∧
    (run { cfg with dryRun := true } defaultBranch branches now).skippedBranches =
      (run { cfg with dryRun := false } defaultBranch branches now).skippedBranches := by
  obtain ⟨daysOld, dryRun, protectedBranches, excludePattern⟩ := cfg
  have hcand : ∀ b ∈ candidateBranches defaultBranch branches, b.deleteSucceeds = true :=
    fun b hb => hok b ((mem_candidateBranches defaultBranch branches b).mp hb).1
  constructor
  · rw [run_deleted_eq, run_deleted_eq, List.flatMap_def, List.flatMap_def]
    exact congrArg List.flatten (List.map_congr_left
      (fun b hb => (branchDelta_dry_vs_live _ _ _ b (hcand b hb)).1))
  · rw [run_skipped_eq, run_skipped_eq, List.flatMap_def, List.flatMap_def]
    exact congrArg List.flatten (List.map_congr_left
      (fun b hb => (branchDelta_dry_vs_live _ _ _ b (hcand b hb)).2))

/-- C5 witness: over `main` (default), an old `feature/a` and a recent
`release/1.0`, all deletions succeeding, the dry and live runs have the
same deleted and skipped lists. -/
theorem claim_C5_witness :
    (run { daysOld := 14, dryRun := true, protectedBranches := ["main"],
            excludePattern := ExcludePattern.empty } "main"
        [⟨"main", some 100, true⟩, ⟨"feature/a", some 80, true⟩, ⟨"release/1.0", some 95, true⟩]
        100).deletedBranches =
      (run { daysOld := 14, dryRun := false, protectedBranches := ["main"],
              excludePattern := ExcludePattern.empty } "main"
        [⟨"main", some 100, true⟩, ⟨"feature/a", some 80, true⟩, ⟨"release/1.0", some 95, true⟩]
        100).deletedBranches ∧
    (run { daysOld := 14, dryRun := true, protectedBranches := ["main"],
            excludePattern := ExcludePattern.empty } "main"
        [⟨"main", some 100, true⟩, ⟨"feature/a", some 80, true⟩, ⟨"release/1.0", some 95, true⟩]
        100).skippedBranches =
      (run { daysOld := 14, dryRun := false, protectedBranches := ["main"],
              excludePattern := ExcludePattern.empty } "main"
        [⟨"main", some 100, true⟩, ⟨"feature/a", some 80, true⟩, ⟨"release/1.0", some 95, true⟩]
        100).skippedBranches :=
  claim_C5 { daysOld := 14, dryRun := true, protectedBranches := ["main"],
             excludePattern := ExcludePattern.empty } "main"
    [⟨"main", some 100, true⟩, ⟨"feature/a", some 80, true⟩, ⟨"release/1.0", some 95, true⟩]
    100 (by decide)

theorem candidateBranches_split (defaultBranch : String) (l₁ l₂ : List BranchInfo)
    (b : BranchInfo) (hdef : b.name ≠ defaultBranch) :
    candidateBranches defaultBranch (l₁ ++ b :: l₂) =
      candidateBranches defaultBranch l₁ ++ b :: candidateBranches defaultBranch l₂ := by
  unfold candidateBranches
  rw [List.filter_append, List.filter_cons_of_pos (by simpa using hdef)]

/-- C6: per-branch failures are isolated.  For a listing `l₁ ++ b :: l₂`
whose middle branch `b` is a candidate that passes the protected and
exclude checks: if fetching its timestamp fails it contributes exactly one
`error_processing` skip, and if (live) its deletion fails it contributes
exactly one `deletion_failed` skip; in both cases the run completes and the
surrounding entries of both lists are exactly those computed from `l₁` and
`l₂` alone, unaffected by `b`'s failure. -/
theorem claim_C6 (cfg : Config) (defaultBranch : String) (l₁ l₂ : List BranchInfo)
    (now : Int) (b : BranchInfo)
    (hdef : b.name ≠ defaultBranch)
    (hprot : isProtected (addDefaultToProtected cfg.protectedBranches defaultBranch) b.name = false)
    (hx : matchesExcludePattern cfg.excludePattern b.name = false) :
    (b.lastCommit = none →
      (run cfg defaultBranch (l₁ ++ b :: l₂) now).skippedBranches =
        (runBranches (addDefaultToProtected cfg.protectedBranches defaultBranch)
            cfg.excludePattern cfg.dryRun (computeCutoff now cfg.daysOld)
            (candidateBranches defaultBranch l₁)).skippedBranches ++
          (b.name, "error_processing") ::
          (runBranches (addDefaultToProtected cfg.protectedBranches defaultBranch)
            cfg.excludePattern cfg.dryRun (computeCutoff now cfg.daysOld)
            (candidateBranches defaultBranch l₂)).skippedBranches ∧
      (run cfg defaultBranch (l₁ ++ b :: l₂) now).deletedBranches =
        (runBranches (addDefaultToProtected cfg.protectedBranches defaultBranch)
            cfg.excludePattern cfg.dryRun (computeCutoff now cfg.daysOld)
            (candidateBranches defaultBranch l₁)).deletedBranches ++
          (runBranches (addDefaultToProtected cfg.protectedBranches defaultBranch)
            cfg.excludePattern cfg.dryRun (computeCutoff now cfg.daysOld)
            (candidateBranches defaultBranch l₂)).deletedBranches) ∧
    (∀ t, cfg.dryRun = false → b.lastCommit = some t →
      t < computeCutoff now cfg.daysOld → b.deleteSucceeds = false →
      (run cfg defaultBranch (l₁ ++ b :: l₂) now).skippedBranches =
        (runBranches (addDefaultToProtected cfg.protectedBranches defaultBranch)
            cfg.excludePattern cfg.dryRun (computeCutoff now cfg.daysOld)
            (candidateBranches defaultBranch l₁)).skippedBranches ++
          (b.name, "deletion_failed") ::
          (runBranches (addDefaultToProtected cfg.protectedBranches defaultBranch)
            cfg.excludePattern cfg.dryRun (computeCutoff now cfg.daysOld)
            (candidateBranches defaultBranch l₂)).skippedBranches ∧
      (run cfg defaultBranch (l₁ ++ b :: l₂) now).deletedBranches =
        (runBranches (addDefaultToProtected cfg.protectedBranches defaultBranch)
            cfg.excludePattern cfg.dryRun (computeCutoff now cfg.daysOld)
            (candidateBranches defaultBranch l₁)).deletedBranches ++
          (runBranches (addDefaultToProtected cfg.protectedBranches defaultBranch)
            cfg.excludePattern cfg.dryRun (computeCutoff now cfg.daysOld)
            (candidateBranches defaultBranch l₂)).deletedBranches) := by
  have hsk : (run cfg defaultBranch (l₁ ++ b :: l₂) now).skippedBranches =
      (runBranches (addDefaultToProtected cfg.protectedBranches defaultBranch)
          cfg.excludePattern cfg.dryRun (computeCutoff now cfg.daysOld)
          (candidateBranches defaultBranch l₁)).skippedBranches ++
        ((branchDelta (addDefaultToProtected cfg.protectedBranches defaultBranch)
          cfg.excludePattern cfg.dryRun (computeCutoff now cfg.daysOld) b).skippedBranches ++
        (runBranches (addDefaultToProtected cfg.protectedBranches defaultBranch)
          cfg.excludePattern cfg.dryRun (computeCutoff now cfg.daysOld)
          (candidateBranches defaultBranch l₂)).skippedBranches) := by
    rw [run_skipped_eq, candidateBranches_split defaultBranch l₁ l₂ b hdef,
      List.flatMap_append, List.flatMap_cons, runBranches_skipped, runBranches_skipped]
  have hdl : (run cfg defaultBranch (l₁ ++ b :: l₂) now).deletedBranches =
      (runBranches (addDefaultToProtected cfg.protectedBranches defaultBranch)
          cfg.excludePattern cfg.dryRun (computeCutoff now cfg.daysOld)
          (candidateBranches defaultBranch l₁)).deletedBranches ++
        ((branchDelta (addDefaultToProtected cfg.protectedBranches defaultBranch)
          cfg.excludePattern cfg.dryRun (computeCutoff now cfg.daysOld) b).deletedBranches ++
        (runBranches (addDefaultToProtected cfg.protectedBranches defaultBranch)
          cfg.excludePattern cfg.dryRun (computeCutoff now cfg.daysOld)
          (candidateBranches defaultBranch l₂)).deletedBranches) := by
    rw [run_deleted_eq, candidateBranches_split defaultBranch l₁ l₂ b hdef,
      List.flatMap_append, List.flatMap_cons, runBranches_deleted, runBranches_deleted]
  constructor
  · intro hc
    rw [hsk, hdl, branchDelta_fetchFail _ _ _ _ _ hprot hx hc]
    simp
  · intro t hdry hc ht hdel
    rw [hsk, hdl, hdry, branchDelta_liveDeleteFail _ _ _ _ _ hprot hx hc ht hdel]
    simp

/-- C6 witness: live run over `main`, `broken` (fetch fails), `feature/a`
(old, delete fails) and `release/1.0` (recent): `broken` is skipped
`error_processing` and the branches around it are classified exactly as
they are on their own. -/
theorem claim_C6_witness :
    (run ⟨14, false, ["main"], ExcludePattern.empty⟩ "main"
        ([⟨"main", some 100, true⟩] ++ ⟨"broken", none, true⟩ ::
          [⟨"feature/a", some 80, true⟩, ⟨"release/1.0", some 95, true⟩]) 100).skippedBranches =
      (runBranches (addDefaultToProtected ["main"] "main") ExcludePattern.empty false
          (computeCutoff 100 14)
          (candidateBranches "main" [⟨"main", some 100, true⟩])).skippedBranches ++
        (BranchInfo.name ⟨"broken", none, true⟩, "error_processing") ::
        (runBranches (addDefaultToProtected ["main"] "main") ExcludePattern.empty false
          (computeCutoff 100 14)
          (candidateBranches "main"
            [⟨"feature/a", some 80, true⟩, ⟨"release/1.0", some 95, true⟩])).skippedBranches ∧
    (run ⟨14, false, ["main"], ExcludePattern.empty⟩ "main"
        ([⟨"main", some 100, true⟩] ++ ⟨"broken", none, true⟩ ::
          [⟨"feature/a", some 80, true⟩, ⟨"release/1.0", some 95, true⟩]) 100).deletedBranches =
      (runBranches (addDefaultToProtected ["main"] "main") ExcludePattern.empty false
          (computeCutoff 100 14)
          (candidateBranches "main" [⟨"main", some 100, true⟩])).deletedBranches ++
        (runBranches (addDefaultToProtected ["main"] "main") ExcludePattern.empty false
          (computeCutoff 100 14)
          (candidateBranches "main"
            [⟨"feature/a", some 80, true⟩, ⟨"release/1.0", some 95, true⟩])).deletedBranches :=
  (claim_C6 ⟨14, false, ["main"], ExcludePattern.empty⟩ "main"
    [⟨"main", some 100, true⟩] [⟨"feature/a", some 80, true⟩, ⟨"release/1.0", some 95, true⟩]
    100 ⟨"broken", none, true⟩ (by decide) (by decide) (by decide)).1 rfl

theorem branchDelta_no_exclude_reason (protectedBranches : List String) (pat : ExcludePattern)
    (dryRun : Bool) (cutoffDate : Int) (b : BranchInfo)
    (hx : matchesExcludePattern pat b.name = false) :
    ∀ p ∈ (branchDelta protectedBranches pat dryRun cutoffDate b).skippedBranches,
      p.2 ≠ "matches_exclude_pattern" := by
  unfold branchDelta processBranch
  rw [hx]
  cases hb : b.lastCommit <;>
    simp only [addSkippedBranch, pushDeleted, recordFetch, recordDeleteCall, emptyState,
      Bool.false_eq_true, if_false] <;>
    split_ifs <;>
    simp

/-- C7: when the configured exclude pattern fails to compile, the run does
not abort: no branch is ever skipped with reason `matches_exclude_pattern`,
and the whole run result is identical to that of a run with no exclude
pattern at all (exclusion degrades to a no-op and every branch is
classified by the remaining rules). -/
theorem claim_C7 (cfg : Config) (defaultBranch : String) (branches : List BranchInfo)
    (now : Int) (hinv : cfg.excludePattern = ExcludePattern.invalid) :
    (∀ p ∈ (run cfg defaultBranch branches now).skippedBranches,
      p.2 ≠ "matches_exclude_pattern") ∧
    run cfg defaultBranch branches now =
      run { cfg with excludePattern := ExcludePattern.empty } defaultBranch branches now := by
  obtain ⟨daysOld, dryRun, protectedBranches, excludePattern⟩ := cfg
  simp only at hinv
  subst hinv
  constructor
  · intro p hp
    rw [run_skipped_eq] at hp
    rcases List.mem_flatMap.mp hp with ⟨b, _, hbp⟩
    exact branchDelta_no_exclude_reason _ ExcludePattern.invalid _ _ b rfl p hbp
  · have hpb : processBranch (addDefaultToProtected protectedBranches defaultBranch)
        ExcludePattern.invalid dryRun (computeCutoff now daysOld) =
        processBranch (addDefaultToProtected protectedBranches defaultBranch)
        ExcludePattern.empty dryRun (computeCutoff now daysOld) := by
      funext st br
      simp [processBranch, matchesExcludePattern]
    simp only [run, runBranches]
    rw [hpb]

/-- C7 witness: with an invalid exclude pattern over `main` and an old
`feature/a`, no skip reason is `matches_exclude_pattern`, and the run
equals the run with no pattern. -/
theorem claim_C7_witness :
    (∀ p ∈ (run ⟨14, false, ["main"], ExcludePattern.invalid⟩ "main"
        [⟨"main", some 100, true⟩, ⟨"feature/a", some 80, true⟩,
         ⟨"release/1.0", some 95, true⟩] 100).skippedBranches,
      p.2 ≠ "matches_exclude_pattern") ∧
    run ⟨14, false, ["main"], ExcludePattern.invalid⟩ "main"
        [⟨"main", some 100, true⟩, ⟨"feature/a", some 80, true⟩,
         ⟨"release/1.0", some 95, true⟩] 100 =
      run { daysOld := 14, dryRun := false, protectedBranches := ["main"],
            excludePattern := ExcludePattern.empty } "main"
        [⟨"main", some 100, true⟩, ⟨"feature/a", some 80, true⟩,
         ⟨"release/1.0", some 95, true⟩] 100 :=
  claim_C7 ⟨14, false, ["main"], ExcludePattern.invalid⟩ "main"
    [⟨"main", some 100, true⟩, ⟨"feature/a", some 80, true⟩,
     ⟨"release/1.0", some 95, true⟩] 100 rfl

theorem branchDelta_fetchCalls_protected (protectedBranches : List String)
    (pat : ExcludePattern) (dryRun : Bool) (cutoffDate : Int) (b : BranchInfo)
    (h : isProtected protectedBranches b.name = true) :
    (branchDelta protectedBranches pat dryRun cutoffDate b).fetchCalls = [] := by
  rw [branchDelta_protected _ _ _ _ _ h]

theorem branchDelta_fetchCalls_excluded (protectedBranches : List String)
    (pat : ExcludePattern) (dryRun : Bool) (cutoffDate : Int) (b : BranchInfo)
    (hx : matchesExcludePattern pat b.name = true) :
    (branchDelta protectedBranches pat dryRun cutoffDate b).fetchCalls = [] := by
  cases hp : isProtected protectedBranches b.name
  · rw [branchDelta_excluded _ _ _ _ _ hp hx]
  · rw [branchDelta_protected _ _ _ _ _ hp]

/-- C8: every candidate branch whose name is in the effective protected
list (exact, case-sensitive equality) is skipped with reason `protected`,
and no `getBranchLastCommitDate` call is ever issued for that name. -/
theorem claim_C8 (cfg : Config) (defaultBranch : String) (branches : List BranchInfo)
    (now : Int) (b : BranchInfo)
    (hb : b ∈ candidateBranches defaultBranch branches)
    (hprot : isProtected (addDefaultToProtected cfg.protectedBranches defaultBranch)
      b.name = true) :
    (b.name, "protected") ∈ (run cfg defaultBranch branches now).skippedBranches ∧
    b.name ∉ (run cfg defaultBranch branches now).fetchCalls := by
  constructor
  · rw [run_skipped_eq]
    refine List.mem_flatMap.mpr ⟨b, hb, ?_⟩
    rw [branchDelta_protected _ _ _ _ _ hprot]
    simp
  · intro hmem
    rw [run_fetch_eq] at hmem
    rcases List.mem_flatMap.mp hmem with ⟨b', _, hbf⟩
    have hn : b.name = b'.name := branchDelta_fetch_names _ _ _ _ b' _ hbf
    rw [branchDelta_fetchCalls_protected _ _ _ _ b' (hn ▸ hprot)] at hbf
    exact absurd hbf (List.not_mem_nil _)

/-- C8 witness: with `develop` in the protected list, the candidate
`develop` is skipped `protected` and its commit date is never fetched
(its source would fail the fetch, which is never attempted). -/
theorem claim_C8_witness :
    (BranchInfo.name ⟨"develop", none, true⟩, "protected") ∈
      (run ⟨14, false, ["main", "develop"], ExcludePattern.empty⟩ "main"
        [⟨"main", some 100, true⟩, ⟨"develop", none, true⟩,
         ⟨"feature/a", some 80, true⟩] 100).skippedBranches ∧
    BranchInfo.name ⟨"develop", none, true⟩ ∉
      (run ⟨14, false, ["main", "develop"], ExcludePattern.empty⟩ "main"
        [⟨"main", some 100, true⟩, ⟨"develop", none, true⟩,
         ⟨"feature/a", some 80, true⟩] 100).fetchCalls :=
  claim_C8 ⟨14, false, ["main", "develop"], ExcludePattern.empty⟩ "main"
    [⟨"main", some 100, true⟩, ⟨"develop", none, true⟩, ⟨"feature/a", some 80, true⟩]
    100 ⟨"develop", none, true⟩ (by decide) (by decide)

/-- C9: every candidate branch that is not protected but whose name the
(valid) exclude pattern matches is skipped with reason
`matches_exclude_pattern` regardless of its age, and no
`getBranchLastCommitDate` call is ever issued for that name. -/
theorem claim_C9 (cfg : Config) (defaultBranch : String) (branches : List BranchInfo)
    (now : Int) (b : BranchInfo)
    (hb : b ∈ candidateBranches defaultBranch branches)
    (hprot : isProtected (addDefaultToProtected cfg.protectedBranches defaultBranch)
      b.name = false)
    (hx : matchesExcludePattern cfg.excludePattern b.name = true) :
    (b.name, "matches_exclude_pattern") ∈
      (run cfg defaultBranch branches now).skippedBranches ∧
    b.name ∉ (run cfg defaultBranch branches now).fetchCalls := by
  constructor
  · rw [run_skipped_eq]
    refine List.mem_flatMap.mpr ⟨b, hb, ?_⟩
    rw [branchDelta_excluded _ _ _ _ _ hprot hx]
    simp
  · intro hmem
    rw [run_fetch_eq] at hmem
    rcases List.mem_flatMap.mp hmem with ⟨b', _, hbf⟩
    have hn : b.name = b'.name := branchDelta_fetch_names _ _ _ _ b' _ hbf
    rw [branchDelta_fetchCalls_excluded _ _ _ _ b' (hn ▸ hx)] at hbf
    exact absurd hbf (List.not_mem_nil _)

/-- C9 witness: with a valid pattern matching `release/1.0`, that very old
branch (timestamp 0) is skipped `matches_exclude_pattern` despite its age,
and its commit date is never fetched. -/
theorem claim_C9_witness :
    (BranchInfo.name ⟨"release/1.0", some 0, true⟩, "matches_exclude_pattern") ∈
      (run ⟨14, false, ["main"],
          ExcludePattern.valid (fun n => n == "release/1.0")⟩ "main"
        [⟨"main", some 100, true⟩, ⟨"release/1.0", some 0, true⟩,
         ⟨"feature/a", some 80, true⟩] 100).skippedBranches ∧
    BranchInfo.name ⟨"release/1.0", some 0, true⟩ ∉
      (run ⟨14, false, ["main"],
          ExcludePattern.valid (fun n => n == "release/1.0")⟩ "main"
        [⟨"main", some 100, true⟩, ⟨"release/1.0", some 0, true⟩,
         ⟨"feature/a", some 80, true⟩] 100).fetchCalls :=
  claim_C9 ⟨14, false, ["main"], ExcludePattern.valid (fun n => n == "release/1.0")⟩ "main"
    [⟨"main", some 100, true⟩, ⟨"release/1.0", some 0, true⟩, ⟨"feature/a", some 80, true⟩]
    100 ⟨"release/1.0", some 0, true⟩ (by decide) (by decide) (by decide)

/-- C10 counterexample: a run whose listing holds only the default branch
has an empty candidate set; the engine returns early (index.js lines
169-172) and never emits the report, refuting the claim that the report is
emitted exactly once even for an empty candidate set. -/
theorem claim_C10_counterexample :
    (run ⟨14, false, ["main"], ExcludePattern.empty⟩ "main"
      [⟨"main", some 100, true⟩] 100).outputEmitted = false := by
  rfl

/-- C10 (amended): for every run that does not abort with a fatal error,
the report is emitted exactly once if and only if the candidate set is
nonempty; a run with an empty candidate set returns early without emitting
the report. -/
theorem claim_C10 (cfg : Config) (defaultBranch : String) (branches : List BranchInfo)
    (now : Int) :
    (run cfg defaultBranch branches now).outputEmitted = true ↔
      candidateBranches defaultBranch branches ≠ [] := by
  simp only [run]
  split
  · rename_i h
    rw [List.length_eq_zero] at h
    simp [h]
  · rename_i h
    rw [List.length_eq_zero] at h
    simp [h]
